import Mathlib

/-!
Verification development for the AIMeetingFlow repository.

The Python sources under src/ are shallowly embedded as executable Lean
definitions.  File-local helpers model Python string primitives (str.strip,
str.lower, substring test, readline chunking); each service module gets its
own namespace whose definitions mirror the functions of the corresponding
Python file.  Subprocess execution is modelled by an explicit behaviour
record (exit code, captured stdout/stderr, spawn failure, timeout), and the
runners are pure functions from that behaviour to their observable outcome.
-/

/-- Python str.strip on a character list: drop whitespace from both ends. -/
def stripChars (l : List Char) : List Char :=
  ((l.dropWhile Char.isWhitespace).reverse.dropWhile Char.isWhitespace).reverse

/-- Python str.strip for strings. -/
def pyStrip (s : String) : String :=
  ⟨stripChars s.data⟩

/-- Python str.lower, character-wise case folding. -/
def pyLower (s : String) : String :=
  ⟨s.data.map Char.toLower⟩

/-- Does the first list lead (start) the second one? -/
def listLeads : List Char → List Char → Bool
  | [], _ => true
  | _ :: _, [] => false
  | p :: ps, c :: cs => p == c && listLeads ps cs

/-- Python substring test: does the needle occur anywhere in the haystack? -/
def containsSub (needle : List Char) : List Char → Bool
  | [] => needle.isEmpty
  | c :: rest => listLeads needle (c :: rest) || containsSub needle rest

/-- Python "needle in hay" for strings. -/
def strContains (hay needle : String) : Bool :=
  containsSub needle.data hay.data

/-- Python str.startswith for strings. -/
def strStartsWith (s p : String) : Bool :=
  listLeads p.data s.data

/-- Split a character stream into readline-style chunks: every chunk ends with
a newline character except possibly the last one, and the chunks concatenate
back to the original stream.  asyncio StreamReader.readline delivers exactly
these pieces to the pump tasks. -/
def splitLinesKeepEndsAux : List Char → List Char → List (List Char)
  | acc, [] => if acc.isEmpty then [] else [acc.reverse]
  | acc, c :: rest =>
    if c = '\n' then (acc.reverse ++ ['\n']) :: splitLinesKeepEndsAux [] rest
    else splitLinesKeepEndsAux (c :: acc) rest

/-- The readline chunks of a subprocess output channel. -/
def splitLinesKeepEnds (s : String) : List String :=
  (splitLinesKeepEndsAux [] s.data).map fun l => ⟨l⟩

/-- Concatenation of a list of strings, as done by str.join with an empty
separator over the accumulated chunk lists. -/
def strJoin (l : List String) : String :=
  ⟨(l.map String.data).flatten⟩

/-- pathlib Path(x).name: the path component after the last slash, ignoring
trailing slashes. -/
def baseName (s : String) : String :=
  ⟨((s.data.reverse.dropWhile (· = '/')).takeWhile (· ≠ '/')).reverse⟩

/-- Value of a run of decimal digit characters, as int() reads it. -/
def digitsToNat (l : List Char) : Nat :=
  l.foldl (fun acc c => acc * 10 + (c.toNat - '0'.toNat)) 0

/-- Python format spec 03d: zero-pad a natural number to three digits. -/
def pad3 (n : Nat) : String :=
  if n < 10 then "00" ++ toString n
  else if n < 100 then "0" ++ toString n
  else toString n

/-- Observable behaviour of one spawned subprocess: whether the spawn itself
fails (FileNotFoundError), whether the call exceeds its timeout budget, and
otherwise the exit code and the full bytes of both output channels.  The two
chunk counts say how many readline chunks of each channel were delivered
before the timeout fired; they matter only when timesOut is set, because a
timeout can interrupt the streaming consumer mid-delivery. -/
structure ProcBehavior where
  spawnFails : Bool
  timesOut : Bool
  returncode : Int
  stdout : String
  stderr : String
  stdoutChunksBeforeTimeout : Nat
  stderrChunksBeforeTimeout : Nat
deriving DecidableEq

/-- The error taxonomy of the runners, one constructor per distinct raise. -/
inductive RunError where
  | emptyInput
  | execNotFound
  | timeoutExceeded (limitSec : Int)
  | nonZeroExit (returncode : Int) (stderr : String)
  | emptyOutput
deriving DecidableEq

namespace ClaudeCli

/-! Embedding of src/services/claude_cli_service.py.  The module-level settings
read by the Python code are gathered into a configuration record; the shlex
tokenisation of the configured command string is abstracted as the token list
it produces. -/

/-- The settings consulted by claude_cli_service: claude_cli_command (as its
shlex token list), claude_cli_reuse_session, claude_cli_session_idle_sec and
claude_cli_session_max_turns. -/
structure Cfg where
  commandTokens : List String
  reuseSession : Bool
  sessionIdleSec : Int
  sessionMaxTurns : Int
deriving DecidableEq

/-- The global _SESSION_STATE dictionary: id, turns and last_used. -/
structure SessionState where
  id : String
  turns : Nat
  lastUsed : ℚ
deriving DecidableEq

/-- The subcommands recognised by _resolve_command (lines 38-48). -/
def claude_subcommands : List String :=
  ["agents", "auth", "doctor", "install", "mcp", "plugin", "setup-token",
   "update", "upgrade"]

/-- resolve_command (lines 31-52), applied to the shlex token list of the
configured command: an empty token list falls back to the bare binary, and
the -p print flag is inserted right after the binary when the binary's base
name is claude, no -p or --print flag occurs among the arguments, and the
first argument is none of the recognised subcommands. -/
def resolve_command (command : List String) : List String :=
  match command with
  | [] => ["claude"]
  | bin :: args =>
    let binaryName := pyLower (baseName bin)
    let hasPrintFlag := args.any fun token => token == "-p" || token == "--print"
    let hasSubcommand := match args with
      | first :: _ => claude_subcommands.contains first
      | [] => false
    if binaryName == "claude" && !hasPrintFlag && !hasSubcommand then
      bin :: "-p" :: args
    else bin :: args

/-- command_has_session_flags (lines 55-61). -/
def command_has_session_flags (command : List String) : Bool :=
  (command.drop 1).any fun token =>
    ["--session-id", "-r", "--resume", "-c", "--continue",
     "--no-session-persistence"].contains token
    || strStartsWith token "--session-id="
    || strStartsWith token "--resume="

/-- session_reuse_supported (lines 64-74). -/
def session_reuse_supported (reuseSession : Bool) (command : List String) : Bool :=
  if !reuseSession then false
  else match command with
  | [] => false
  | bin :: _ =>
    if !(pyLower (baseName bin) == "claude") then false
    else if command_has_session_flags command then false
    else true

/-- lease_session_id (lines 77-94).  time.monotonic() is the now argument and
uuid.uuid4() is the fresh argument; the function returns the leased id, the
created flag and the updated session state. -/
def lease_session_id (idleSec maxTurns : Int) (st : SessionState) (now : ℚ)
    (fresh : String) : String × Bool × SessionState :=
  let idleLimit : Int := max 0 idleSec
  let turnLimit : Int := max 0 maxTurns
  let idleExpired : Prop :=
    st.id ≠ "" ∧ 0 < idleLimit ∧ 0 < st.lastUsed ∧ (idleLimit : ℚ) ≤ now - st.lastUsed
  let turnExpired : Prop :=
    st.id ≠ "" ∧ 0 < turnLimit ∧ turnLimit ≤ (st.turns : Int)
  if st.id = "" ∨ idleExpired ∨ turnExpired then
    (fresh, true, ⟨fresh, 0, now⟩)
  else
    (st.id, false, st)

/-- touch_session (lines 97-106). -/
def touch_session (sessionId : String) (success : Bool) (now : ℚ)
    (st : SessionState) : SessionState :=
  if sessionId = "" then st
  else if st.id ≠ sessionId then st
  else ⟨st.id, if success then st.turns + 1 else st.turns, now⟩

/-- reset_session (lines 109-117). -/
def reset_session (sessionId : String) (st : SessionState) : SessionState :=
  if sessionId = "" then st
  else if st.id ≠ sessionId then st
  else ⟨"", 0, 0⟩

/-- maybe_reset_session_from_error (lines 120-126). -/
def maybe_reset_session_from_error (sessionId errorText : String)
    (st : SessionState) : SessionState :=
  let lowered := pyLower errorText
  if lowered = "" then st
  else if strContains lowered "session"
      && (strContains lowered "not found" || strContains lowered "invalid") then
    reset_session sessionId st
  else st

/-- build_command_with_session (lines 135-148): returns the extended command,
the leased session id (empty when reuse is unsupported) and the new state. -/
def build_command_with_session (cfg : Cfg) (st : SessionState) (now : ℚ)
    (fresh : String) (base : List String) : List String × String × SessionState :=
  if session_reuse_supported cfg.reuseSession base then
    let r := lease_session_id cfg.sessionIdleSec cfg.sessionMaxTurns st now fresh
    (base ++ ["--session-id", r.1], r.1, r.2.2)
  else (base, "", st)

/-- build_full_input (lines 151-152). -/
def build_full_input (transcript prompt : String) : String :=
  pyStrip prompt ++ "\n\n[전사 텍스트]\n" ++ pyStrip transcript ++ "\n"

end ClaudeCli

deriving instance DecidableEq for Except

namespace ClaudeCli

/-- Observable outcome of one run_claude call: the returned string or raised
error, whether a subprocess spawn was attempted, the payload written to the
child's stdin (empty when nothing was written), and the session state after
all bookkeeping. -/
structure RunOutcome where
  result : Except RunError String
  spawnAttempted : Bool
  stdinPayload : String
  session : SessionState
deriving DecidableEq

/-- run_claude (lines 155-225) as a function of the session state, the clock,
the freshly drawn uuid and the subprocess behaviour. -/
def run_claude (cfg : Cfg) (st : SessionState) (now : ℚ) (fresh : String)
    (transcript prompt : String) (timeoutSec : Int) (beh : ProcBehavior) :
    RunOutcome :=
  let text := pyStrip transcript
  let instruction := pyStrip prompt
  if text = "" then ⟨Except.error RunError.emptyInput, false, "", st⟩
  else
    let b := build_command_with_session cfg st now fresh (resolve_command cfg.commandTokens)
    let sessionId := b.2.1
    let st1 := b.2.2
    let fullInput := build_full_input text instruction
    let timeoutValue : Int := max 1 (if timeoutSec = 0 then 1 else timeoutSec)
    if beh.spawnFails then
      ⟨Except.error RunError.execNotFound, true, "",
        touch_session sessionId false now st1⟩
    else if beh.timesOut then
      ⟨Except.error (RunError.timeoutExceeded timeoutValue), true, fullInput,
        touch_session sessionId false now st1⟩
    else if beh.returncode ≠ 0 then
      let stderrText := pyStrip beh.stderr
      ⟨Except.error (RunError.nonZeroExit beh.returncode stderrText), true, fullInput,
        maybe_reset_session_from_error sessionId stderrText
          (touch_session sessionId false now st1)⟩
    else
      let output := pyStrip beh.stdout
      if output = "" then
        ⟨Except.error RunError.emptyOutput, true, fullInput,
          touch_session sessionId false now st1⟩
      else
        ⟨Except.ok output, true, fullInput, touch_session sessionId true now st1⟩

/-- Observable outcome of one streaming invocation: the chunk event texts of
each channel in their per-channel delivery order (the merged queue preserves
the order within a channel; no cross-channel order is guaranteed, so only the
per-channel sequences are modelled), the terminal result (the done event's
payload, or the raised error), the spawn flag, the stdin payload and the
final session state. -/
structure StreamOutcome where
  stdoutChunks : List String
  stderrChunks : List String
  result : Except RunError String
  spawnAttempted : Bool
  stdinPayload : String
  session : SessionState
deriving DecidableEq

/-- stream_claude_cli (lines 234-241) delegating to _stream_claude_cli_locked
(lines 244-371), as a function of the same data as run_claude. -/
def stream_claude_cli (cfg : Cfg) (st : SessionState) (now : ℚ) (fresh : String)
    (transcript prompt : String) (timeoutSec : Int) (beh : ProcBehavior) :
    StreamOutcome :=
  let text := pyStrip transcript
  let instruction := pyStrip prompt
  if text = "" then ⟨[], [], Except.error RunError.emptyInput, false, "", st⟩
  else
    let timeoutValue : Int := max 1 timeoutSec
    let b := build_command_with_session cfg st now fresh (resolve_command cfg.commandTokens)
    let sessionId := b.2.1
    let st1 := b.2.2
    let fullInput := build_full_input text instruction
    if beh.spawnFails then
      ⟨[], [], Except.error RunError.execNotFound, true, "",
        touch_session sessionId false now st1⟩
    else
      let outChunks := splitLinesKeepEnds beh.stdout
      let errChunks := splitLinesKeepEnds beh.stderr
      if beh.timesOut then
        ⟨outChunks.take beh.stdoutChunksBeforeTimeout,
         errChunks.take beh.stderrChunksBeforeTimeout,
         Except.error (RunError.timeoutExceeded timeoutValue), true, fullInput,
         touch_session sessionId false now st1⟩
      else if beh.returncode ≠ 0 then
        let stderrText := pyStrip (strJoin errChunks)
        ⟨outChunks, errChunks,
         Except.error (RunError.nonZeroExit beh.returncode stderrText), true, fullInput,
         maybe_reset_session_from_error sessionId stderrText
           (touch_session sessionId false now st1)⟩
      else
        let output := pyStrip (strJoin outChunks)
        if output = "" then
          ⟨outChunks, errChunks, Except.error RunError.emptyOutput, true, fullInput,
            touch_session sessionId false now st1⟩
        else
          ⟨outChunks, errChunks, Except.ok output, true, fullInput,
            touch_session sessionId true now st1⟩

end ClaudeCli

namespace CodexCli

/-! Embedding of src/services/codex_cli_service.py.  The codex runner has no
session machinery; otherwise it mirrors the claude runner. -/

/-- The subcommands recognised by _resolve_command (lines 28-47). -/
def codex_subcommands : List String :=
  ["exec", "review", "login", "logout", "mcp", "mcp-server", "app-server",
   "app", "completion", "sandbox", "debug", "apply", "a", "resume", "fork",
   "cloud", "features", "help"]

/-- resolve_command (lines 22-51), applied to the shlex token list of the
configured command: the exec subcommand is inserted right after the binary
when the binary's base name is codex and the first argument is none of the
recognised subcommands. -/
def resolve_command (command : List String) : List String :=
  match command with
  | [] => ["codex"]
  | bin :: args =>
    let binaryName := pyLower (baseName bin)
    let hasSubcommand := match args with
      | first :: _ => codex_subcommands.contains first
      | [] => false
    if binaryName == "codex" && !hasSubcommand then
      bin :: "exec" :: args
    else bin :: args

/-- build_full_input (lines 54-55), identical to the claude one. -/
def build_full_input (transcript prompt : String) : String :=
  pyStrip prompt ++ "\n\n[전사 텍스트]\n" ++ pyStrip transcript ++ "\n"

/-- Observable outcome of one run_codex call. -/
structure RunOutcome where
  result : Except RunError String
  spawnAttempted : Bool
  stdinPayload : String
deriving DecidableEq

/-- run_codex (lines 58-121) as a function of the configured command tokens
and the subprocess behaviour. -/
def run_codex (transcript prompt : String) (timeoutSec : Int)
    (beh : ProcBehavior) : RunOutcome :=
  let text := pyStrip transcript
  let instruction := pyStrip prompt
  if text = "" then ⟨Except.error RunError.emptyInput, false, ""⟩
  else
    let fullInput := build_full_input text instruction
    let timeoutValue : Int := max 1 (if timeoutSec = 0 then 1 else timeoutSec)
    if beh.spawnFails then
      ⟨Except.error RunError.execNotFound, true, ""⟩
    else if beh.timesOut then
      ⟨Except.error (RunError.timeoutExceeded timeoutValue), true, fullInput⟩
    else if beh.returncode ≠ 0 then
      ⟨Except.error (RunError.nonZeroExit beh.returncode (pyStrip beh.stderr)), true,
        fullInput⟩
    else
      let output := pyStrip beh.stdout
      if output = "" then ⟨Except.error RunError.emptyOutput, true, fullInput⟩
      else ⟨Except.ok output, true, fullInput⟩

/-- Observable outcome of one stream_codex_cli call; the chunk lists are the
per-channel event texts in delivery order. -/
structure StreamOutcome where
  stdoutChunks : List String
  stderrChunks : List String
  result : Except RunError String
  spawnAttempted : Bool
  stdinPayload : String
deriving DecidableEq

/-- stream_codex_cli (lines 129-248). -/
def stream_codex_cli (transcript prompt : String) (timeoutSec : Int)
    (beh : ProcBehavior) : StreamOutcome :=
  let text := pyStrip transcript
  let instruction := pyStrip prompt
  if text = "" then ⟨[], [], Except.error RunError.emptyInput, false, ""⟩
  else
    let timeoutValue : Int := max 1 timeoutSec
    let fullInput := build_full_input text instruction
    if beh.spawnFails then
      ⟨[], [], Except.error RunError.execNotFound, true, ""⟩
    else
      let outChunks := splitLinesKeepEnds beh.stdout
      let errChunks := splitLinesKeepEnds beh.stderr
      if beh.timesOut then
        ⟨outChunks.take beh.stdoutChunksBeforeTimeout,
         errChunks.take beh.stderrChunksBeforeTimeout,
         Except.error (RunError.timeoutExceeded timeoutValue), true, fullInput⟩
      else if beh.returncode ≠ 0 then
        ⟨outChunks, errChunks,
         Except.error (RunError.nonZeroExit beh.returncode (pyStrip (strJoin errChunks))),
         true, fullInput⟩
      else
        let output := pyStrip (strJoin outChunks)
        if output = "" then
          ⟨outChunks, errChunks, Except.error RunError.emptyOutput, true, fullInput⟩
        else
          ⟨outChunks, errChunks, Except.ok output, true, fullInput⟩

end CodexCli

namespace AiRouter

/-! Embedding of src/web/routers/ai.py: the issue-writer filename logic, the
auto-watch stability wait and tick diff, and the router's own subprocess
spawn sites. -/

/-- resolve_command (lines 57-60). -/
def resolve_command (engine : String) : List String :=
  if engine = "codex" then ["codex", "exec"] else ["claude", "-p"]

/-- Matcher for the two anchored stem patterns of _extract_issue_index: a
nonempty first segment free of the separator, the separator, a nonempty run
of digits, then an underscore.  Because the leading character class excludes
the separator and a shorter digit run would be followed by another digit,
the regex backtracking admits exactly this one decomposition. -/
def matchSegNumUnderscore (sep : Char) (stem : List Char) : Option Nat :=
  let seg := stem.takeWhile (· ≠ sep)
  if seg.isEmpty then none
  else
    match stem.dropWhile (· ≠ sep) with
    | [] => none
    | _ :: rest =>
      let digits := rest.takeWhile Char.isDigit
      if digits.isEmpty then none
      else
        match rest.drop digits.length with
        | '_' :: _ => some (digitsToNat digits)
        | _ => none

/-- extract_issue_index (lines 152-164): try the new-style underscore pattern
first, then the legacy hyphen pattern. -/
def extract_issue_index (stem : String) : Option Nat :=
  match matchSegNumUnderscore '_' stem.data with
  | some n => some n
  | none => matchSegNumUnderscore '-' stem.data

/-- The sequence-number computation of _save_ai_output (lines 219-224):
start at 1 and fold max(acc, index+1) over the stems of the existing *.md
files.  The Python code iterates over sorted stems; sorting does not affect
the fold, so the stems are taken in the given order. -/
def next_issue_num (stems : List String) : Nat :=
  stems.foldl
    (fun acc stem =>
      match extract_issue_index stem with
      | some i => max acc (i + 1)
      | none => acc)
    1

/-- The characters removed by the first substitution of
_sanitize_filename_token (line 201). -/
def illegalFilenameChars : List Char :=
  ['\\', '/', ':', '*', '?', '\"', '<', '>', '|']

/-- Replace every run of characters satisfying p by one rep character; the
Boolean argument tracks whether the previous character was inside a run. -/
def collapseRuns (p : Char → Bool) (rep : Char) : Bool → List Char → List Char
  | _, [] => []
  | inRun, c :: rest =>
    if p c then
      if inRun then collapseRuns p rep true rest
      else rep :: collapseRuns p rep true rest
    else c :: collapseRuns p rep false rest

/-- Python str.strip(chars): drop characters of the given set from both ends. -/
def stripCharsOf (set : List Char) (l : List Char) : List Char :=
  ((l.dropWhile set.contains).reverse.dropWhile set.contains).reverse

/-- sanitize_filename_token (lines 196-207). -/
def sanitize_filename_token (value fallback : String) : String :=
  let raw := pyStrip value
  let raw := if raw = "" then fallback else raw
  let c1 := raw.data.filter fun c => !illegalFilenameChars.contains c
  let c2 := stripChars (collapseRuns Char.isWhitespace ' ' false c1)
  let c3 := c2.map fun c => if c = ' ' then '_' else c
  let c4 := collapseRuns (fun c => c = '_') '_' false c3
  let c5 := stripCharsOf ['.', '_'] c4
  let cleaned := if c5.isEmpty then fallback.data else c5
  ⟨cleaned.take 80⟩

/-- Split on newline characters, keeping empty pieces. -/
def splitNl : List Char → List (List Char)
  | [] => [[]]
  | c :: rest =>
    if c = '\n' then [] :: splitNl rest
    else
      match splitNl rest with
      | [] => [[c]]
      | h :: t => (c :: h) :: t

/-- Python str.splitlines for newline-separated text: split on newlines and
drop a final empty piece, so that text with a trailing newline yields no
trailing empty line and the empty string yields no lines. -/
def pySplitlines (s : String) : List String :=
  let pieces := (splitNl s.data).map fun l => (⟨l⟩ : String)
  match pieces.reverse with
  | [] => []
  | lastPiece :: restRev => if lastPiece = "" then restRev.reverse else pieces

/-- One line of the frontmatter title pattern of
_extract_title_from_ai_output (line 179): optional whitespace, the word
title case-insensitively, optional whitespace, a colon, then the value; the
value is stripped of whitespace and then of surrounding quote characters,
and the match only counts when the result is nonempty. -/
def matchTitleLine (line : String) : Option String :=
  let rest := line.data.dropWhile Char.isWhitespace
  if (⟨(rest.take 5).map Char.toLower⟩ : String) = "title" then
    match (rest.drop 5).dropWhile Char.isWhitespace with
    | ':' :: value =>
      let v := stripCharsOf ['\"', '\''] (stripChars value)
      if v.isEmpty then none else some ⟨v⟩
    | _ => none
  else none

/-- The frontmatter scan of _extract_title_from_ai_output (lines 175-183):
walk the lines until the closing delimiter, returning the first title value. -/
def scanFrontmatter : List String → Option String
  | [] => none
  | line :: rest =>
    if pyStrip line = "---" then none
    else
      match matchTitleLine line with
      | some t => some t
      | none => scanFrontmatter rest

/-- The heading scan of _extract_title_from_ai_output (lines 186-191): the
first line whose stripped form starts with a hash and still has content
after the hashes are removed. -/
def firstHeading : List String → Option String
  | [] => none
  | line :: rest =>
    let heading := pyStrip line
    if heading.data.head? = some '#' then
      let value := stripChars (heading.data.dropWhile (· = '#'))
      if value.isEmpty then firstHeading rest else some ⟨value⟩
    else firstHeading rest

/-- extract_title_from_ai_output (lines 167-193). -/
def extract_title_from_ai_output (aiOutput fallback : String) : String :=
  let text := pyStrip aiOutput
  if text = "" then fallback
  else
    let lines := pySplitlines text
    let fmTitle : Option String :=
      match lines with
      | first :: restLines =>
        if pyStrip first = "---" then scanFrontmatter (restLines.take 119)
        else none
      | [] => none
    match fmTitle with
    | some t => t
    | none =>
      match firstHeading lines with
      | some h => h
      | none => fallback

/-- The output filename computed by _save_ai_output (lines 210-233): account
is the top path segment of the source (empty when the source sits at the
vault root), issueDirName is the name of the destination folder, stems are
the stems of the existing *.md files in it, and sourceStem is the stem of
the source file. -/
def save_ai_output_name (account issueDirName : String) (stems : List String)
    (aiOutput sourceStem : String) : String :=
  let nextNum := next_issue_num stems
  let folderRaw := if account ≠ "" then account
    else if issueDirName ≠ "" then issueDirName else "issue"
  let folderToken := sanitize_filename_token folderRaw "issue"
  let titleRaw := extract_title_from_ai_output aiOutput sourceStem
  let titleToken := sanitize_filename_token titleRaw
    (if sourceStem = "" then "untitled" else sourceStem)
  folderToken ++ "_" ++ pad3 nextNum ++ "_" ++ titleToken ++ ".md"

end AiRouter

namespace AiRouter

/-- AUTO_WATCH_SETTLE_ATTEMPTS (line 39). -/
def settleAttempts : Nat := 3

/-- The sampling loop of _wait_for_stable_file (lines 402-414), over the list
of remaining stat samples (none models FileNotFoundError), carrying the
last observed size and the count of consecutive equal samples; when the
samples run out the Python code falls through to return file_abs.exists(),
the existsAfter argument. -/
def waitLoop (existsAfter : Bool) : Int → Nat → List (Option Int) → Bool
  | _, _, [] => existsAfter
  | lastSize, stableCount, s :: rest =>
    match s with
    | none => false
    | some cur =>
      if cur = lastSize then
        if settleAttempts ≤ stableCount + 1 then true
        else waitLoop existsAfter lastSize (stableCount + 1) rest
      else waitLoop existsAfter cur 0 rest

/-- wait_for_stable_file (lines 398-415): at most settleAttempts * 3 size
samples, starting from last_size = -1 and a zero stability count. -/
def wait_for_stable_file (samples : List (Option Int)) (existsAfter : Bool) : Bool :=
  waitLoop existsAfter (-1) 0 (samples.take (settleAttempts * 3))

/-- handle_auto_watch_file (lines 418-439), reduced to its decision whether
the file is summarized and persisted: the file must still exist as a regular
file and the stability wait must succeed; the result is true exactly when
summarize_file_to_issue runs and its output is saved. -/
def handle_auto_watch_file (existsAsFile : Bool) (samples : List (Option Int))
    (existsAfter : Bool) : Bool :=
  existsAsFile && wait_for_stable_file samples existsAfter

/-- One enabled tick of _auto_watch_loop (lines 457-479) after the candidate
scan: given the known set, the tracked vault string, the freshly resolved
vault string and the current scan, return the list of paths processed this
tick in order, and the new known set.  When the tracked root differs from
the resolved root the baseline is reset without queueing anything;
otherwise the sorted difference is queued and the known set becomes the
current scan. -/
def auto_watch_tick (known : Finset String) (trackedVault vaultText : String)
    (current : Finset String) : List String × Finset String :=
  if trackedVault ≠ vaultText then ([], current)
  else (Finset.sort (· ≤ ·) (current \ known), current)

end AiRouter

/-- One place in the code that launches an agent subprocess: its dotted
location, the argv it resolves, and whether the spawn happens while holding
the _SESSION_EXEC_LOCK of claude_cli_service. -/
structure SpawnSite where
  location : String
  argv : List String
  underSessionExecLock : Bool
deriving DecidableEq

/-- generate_with_claude_cli (claude_cli_service.py lines 228-231) runs
run_claude inside async with _SESSION_EXEC_LOCK. -/
def claudeServiceRunSite (cfg : ClaudeCli.Cfg) : SpawnSite :=
  ⟨"claude_cli_service.generate_with_claude_cli",
   ClaudeCli.resolve_command cfg.commandTokens, true⟩

/-- stream_claude_cli (claude_cli_service.py lines 234-241) iterates the
locked generator inside async with _SESSION_EXEC_LOCK. -/
def claudeServiceStreamSite (cfg : ClaudeCli.Cfg) : SpawnSite :=
  ⟨"claude_cli_service.stream_claude_cli",
   ClaudeCli.resolve_command cfg.commandTokens, true⟩

/-- generate_with_codex_cli (codex_cli_service.py lines 124-126) spawns with
no lock. -/
def codexServiceRunSite (commandTokens : List String) : SpawnSite :=
  ⟨"codex_cli_service.generate_with_codex_cli",
   CodexCli.resolve_command commandTokens, false⟩

/-- stream_codex_cli (codex_cli_service.py lines 129-248) spawns with no
lock. -/
def codexServiceStreamSite (commandTokens : List String) : SpawnSite :=
  ⟨"codex_cli_service.stream_codex_cli",
   CodexCli.resolve_command commandTokens, false⟩

/-- _run_subprocess_once (ai.py lines 236-268), reached from
summarize_file_to_issue with the router's own resolved command; it acquires
no lock before create_subprocess_exec. -/
def aiRunSubprocessOnceSite (engine : String) : SpawnSite :=
  ⟨"ai._run_subprocess_once", AiRouter.resolve_command engine, false⟩

/-- _stream_subprocess (ai.py lines 297-368), reached from the /api/ai/run
endpoint with the router's own resolved command; it acquires no lock before
create_subprocess_exec. -/
def aiStreamSubprocessSite (engine : String) : SpawnSite :=
  ⟨"ai._stream_subprocess", AiRouter.resolve_command engine, false⟩

/-- All subprocess spawn sites of the system, for a given claude
configuration, codex configured command and router engine selection. -/
def spawnSites (claudeCfg : ClaudeCli.Cfg) (codexTokens : List String)
    (engine : String) : List SpawnSite :=
  [claudeServiceRunSite claudeCfg, claudeServiceStreamSite claudeCfg,
   codexServiceRunSite codexTokens, codexServiceStreamSite codexTokens,
   aiRunSubprocessOnceSite engine, aiStreamSubprocessSite engine]

/-- A site invokes the session-capable agent when the base name of its
binary is claude (the session-capable CLI per the glossary). -/
def spawnsSessionAgent (s : SpawnSite) : Bool :=
  pyLower (baseName (s.argv.headD "")) == "claude"

/-! Helper lemmas about the Python string primitives. -/

theorem stripChars_eq_rdropWhile (l : List Char) :
    stripChars l = List.rdropWhile Char.isWhitespace (l.dropWhile Char.isWhitespace) := rfl

theorem stripChars_nil_of_all_ws (l : List Char) (h : ∀ c ∈ l, c.isWhitespace) :
    stripChars l = [] := by
  rw [stripChars_eq_rdropWhile, List.dropWhile_eq_nil_iff.mpr h, List.rdropWhile_nil]

theorem pyStrip_empty_of_all_ws (s : String) (h : ∀ c ∈ s.data, c.isWhitespace) :
    pyStrip s = "" := by
  show (⟨stripChars s.data⟩ : String) = ""
  rw [stripChars_nil_of_all_ws s.data h]

theorem stripChars_head?_not_ws (l : List Char) (c : Char)
    (h : (stripChars l).head? = some c) : c.isWhitespace = false := by
  rw [stripChars_eq_rdropWhile] at h
  obtain ⟨t, ht⟩ := List.rdropWhile_prefix (l := l.dropWhile Char.isWhitespace)
    (p := Char.isWhitespace)
  have hm : (l.dropWhile Char.isWhitespace).head? = some c := by
    rw [← ht]
    cases hr : List.rdropWhile Char.isWhitespace (l.dropWhile Char.isWhitespace) with
    | nil => rw [hr] at h; simp at h
    | cons a s =>
      rw [hr] at h
      simp only [List.head?_cons, Option.some.injEq] at h
      simp [h]
  have := List.head?_dropWhile_not Char.isWhitespace l
  rw [hm] at this
  exact this

theorem stripChars_getLast?_not_ws (l : List Char) (c : Char)
    (h : (stripChars l).getLast? = some c) : c.isWhitespace = false := by
  rw [stripChars_eq_rdropWhile] at h
  have hne : List.rdropWhile Char.isWhitespace (l.dropWhile Char.isWhitespace) ≠ [] := by
    intro hnil
    rw [hnil] at h
    simp at h
  have hlast := List.rdropWhile_last_not (l := l.dropWhile Char.isWhitespace)
    (p := Char.isWhitespace) hne
  rw [List.getLast?_eq_getLast _ hne] at h
  simp only [Option.some.injEq] at h
  rw [← h]
  simpa using hlast

theorem splitLinesKeepEndsAux_flatten (l : List Char) :
    ∀ acc : List Char, (splitLinesKeepEndsAux acc l).flatten = acc.reverse ++ l := by
  induction l with
  | nil =>
    intro acc
    by_cases h : acc.isEmpty
    · rw [List.isEmpty_iff] at h
      simp [splitLinesKeepEndsAux, h]
    · simp [splitLinesKeepEndsAux, h]
  | cons c rest ih =>
    intro acc
    by_cases hc : c = '\n'
    · simp [splitLinesKeepEndsAux, hc, ih []]
    · simpa [splitLinesKeepEndsAux, hc] using ih (c :: acc)

theorem strJoin_splitLinesKeepEnds (s : String) :
    strJoin (splitLinesKeepEnds s) = s := by
  cases s with
  | mk data =>
    show (⟨(((splitLinesKeepEndsAux [] data).map fun l => (⟨l⟩ : String)).map
      String.data).flatten⟩ : String) = ⟨data⟩
    rw [List.map_map]
    have hmap : ∀ m : List (List Char),
        (m.map (String.data ∘ fun l => (⟨l⟩ : String))) = m := by
      intro m
      induction m with
      | nil => rfl
      | cons a t ih => simp only [List.map_cons, ih]; rfl
    rw [hmap, splitLinesKeepEndsAux_flatten data []]
    rfl

/-! Shared concrete fixtures for witnesses and counterexamples. -/

/-- A configuration with the bare claude command and session reuse disabled. -/
def cfgNoReuse : ClaudeCli.Cfg := ⟨["claude"], false, 0, 0⟩

/-- A configuration with the bare claude command and session reuse enabled,
with both expiry limits disabled. -/
def cfgReuse : ClaudeCli.Cfg := ⟨["claude"], true, 0, 0⟩

/-- The empty session slot. -/
def stEmpty : ClaudeCli.SessionState := ⟨"", 0, 0⟩

/-- A successful subprocess: exit code 0 and one stdout line. -/
def behOk : ProcBehavior := ⟨false, false, 0, "hello\n", "", 0, 0⟩

/-- A failing subprocess: exit code 2 with a session-related stderr. -/
def behSessErr : ProcBehavior := ⟨false, false, 2, "", "Error: session not found", 0, 0⟩

/-- C7: for every source text that is empty or whitespace-only, run_claude,
run_codex and the two streaming runners fail with the input-validation
error (the ValueError raised before spawning), and no subprocess spawn is
attempted. -/
theorem c7_empty_input_validation (cfg : ClaudeCli.Cfg) (st : ClaudeCli.SessionState)
    (now : ℚ) (fresh : String) (transcript prompt : String) (timeoutSec : Int)
    (beh : ProcBehavior) (hws : ∀ c ∈ transcript.data, c.isWhitespace) :
    ((ClaudeCli.run_claude cfg st now fresh transcript prompt timeoutSec beh).result
        = Except.error RunError.emptyInput ∧
      (ClaudeCli.run_claude cfg st now fresh transcript prompt timeoutSec beh).spawnAttempted
        = false) ∧
    ((CodexCli.run_codex transcript prompt timeoutSec beh).result
        = Except.error RunError.emptyInput ∧
      (CodexCli.run_codex transcript prompt timeoutSec beh).spawnAttempted = false) ∧
    ((ClaudeCli.stream_claude_cli cfg st now fresh transcript prompt timeoutSec beh).result
        = Except.error RunError.emptyInput ∧
      (ClaudeCli.stream_claude_cli cfg st now fresh transcript prompt timeoutSec
          beh).spawnAttempted = false) ∧
    ((CodexCli.stream_codex_cli transcript prompt timeoutSec beh).result
        = Except.error RunError.emptyInput ∧
      (CodexCli.stream_codex_cli transcript prompt timeoutSec beh).spawnAttempted = false) := by
  have he : pyStrip transcript = "" := pyStrip_empty_of_all_ws transcript hws
  refine ⟨⟨?_, ?_⟩, ⟨?_, ?_⟩, ⟨?_, ?_⟩, ⟨?_, ?_⟩⟩ <;>
    simp [ClaudeCli.run_claude, CodexCli.run_codex, ClaudeCli.stream_claude_cli,
      CodexCli.stream_codex_cli, he]

theorem c7_empty_input_validation_witness :
    (ClaudeCli.run_claude cfgNoReuse stEmpty 0 "f" " \n" "p" 600 behOk).spawnAttempted
      = false :=
  ((c7_empty_input_validation cfgNoReuse stEmpty 0 "f" " \n" "p" 600 behOk
    (by decide)).1).2

/-- On a successful completion (zero exit, nonempty stripped stdout) every
runner delivers the stripped stdout as its result. -/
theorem runners_ok_of_success (cfg : ClaudeCli.Cfg) (st : ClaudeCli.SessionState)
    (now : ℚ) (fresh : String) (transcript prompt : String) (timeoutSec : Int)
    (beh : ProcBehavior) (hne : pyStrip transcript ≠ "")
    (hspawn : beh.spawnFails = false) (hto : beh.timesOut = false)
    (hrc : beh.returncode = 0) (hout : pyStrip beh.stdout ≠ "") :
    (ClaudeCli.run_claude cfg st now fresh transcript prompt timeoutSec beh).result
      = Except.ok (pyStrip beh.stdout) ∧
    (CodexCli.run_codex transcript prompt timeoutSec beh).result
      = Except.ok (pyStrip beh.stdout) ∧
    (ClaudeCli.stream_claude_cli cfg st now fresh transcript prompt timeoutSec beh).result
      = Except.ok (pyStrip beh.stdout) ∧
    (CodexCli.stream_codex_cli transcript prompt timeoutSec beh).result
      = Except.ok (pyStrip beh.stdout) := by
  refine ⟨?_, ?_, ?_, ?_⟩
  · simp [ClaudeCli.run_claude, hne, hspawn, hto, hrc, hout]
  · simp [CodexCli.run_codex, hne, hspawn, hto, hrc, hout]
  · simp [ClaudeCli.stream_claude_cli, hne, hspawn, hto, hrc,
      strJoin_splitLinesKeepEnds, hout]
  · simp [CodexCli.stream_codex_cli, hne, hspawn, hto, hrc,
      strJoin_splitLinesKeepEnds, hout]

/-- C10: on every successful completion (zero exit code and nonempty stripped
stdout), the string returned by run_claude and run_codex and the payload of
the streaming done event all equal the subprocess stdout with leading and
trailing whitespace stripped, which is nonempty and neither starts nor ends
with a whitespace character. -/
theorem c10_success_output_stripped (cfg : ClaudeCli.Cfg) (st : ClaudeCli.SessionState)
    (now : ℚ) (fresh : String) (transcript prompt : String) (timeoutSec : Int)
    (beh : ProcBehavior) (hne : pyStrip transcript ≠ "")
    (hspawn : beh.spawnFails = false) (hto : beh.timesOut = false)
    (hrc : beh.returncode = 0) (hout : pyStrip beh.stdout ≠ "") :
    (ClaudeCli.run_claude cfg st now fresh transcript prompt timeoutSec beh).result
      = Except.ok (pyStrip beh.stdout) ∧
    (CodexCli.run_codex transcript prompt timeoutSec beh).result
      = Except.ok (pyStrip beh.stdout) ∧
    (ClaudeCli.stream_claude_cli cfg st now fresh transcript prompt timeoutSec beh).result
      = Except.ok (pyStrip beh.stdout) ∧
    (CodexCli.stream_codex_cli transcript prompt timeoutSec beh).result
      = Except.ok (pyStrip beh.stdout) ∧
    pyStrip beh.stdout ≠ "" ∧
    (∀ c, (pyStrip beh.stdout).data.head? = some c → c.isWhitespace = false) ∧
    (∀ c, (pyStrip beh.stdout).data.getLast? = some c → c.isWhitespace = false) := by
  obtain ⟨h1, h2, h3, h4⟩ := runners_ok_of_success cfg st now fresh transcript prompt
    timeoutSec beh hne hspawn hto hrc hout
  refine ⟨h1, h2, h3, h4, hout, ?_, ?_⟩
  · intro c hc
    exact stripChars_head?_not_ws beh.stdout.data c hc
  · intro c hc
    exact stripChars_getLast?_not_ws beh.stdout.data c hc

theorem c10_success_output_stripped_witness :
    (ClaudeCli.run_claude cfgNoReuse stEmpty 0 "f" "hi" "p" 600 behOk).result
      = Except.ok "hello" := by
  rw [(c10_success_output_stripped cfgNoReuse stEmpty 0 "f" "hi" "p" 600 behOk
    (by decide) rfl rfl rfl (by decide)).1]
  decide

/-- C1 counterexample: with identical input, command and environment, a
successful subprocess whose raw stdout ends in a newline makes the
concatenation of the streaming stdout chunk texts keep that newline, while
the non-streaming runner returns the stripped stdout, so the two differ. -/
theorem c1_counterexample :
    strJoin (ClaudeCli.stream_claude_cli cfgNoReuse stEmpty 0 "f" "hi" "p" 600
      behOk).stdoutChunks = "hello\n" ∧
    (ClaudeCli.run_claude cfgNoReuse stEmpty 0 "f" "hi" "p" 600 behOk).result
      = Except.ok "hello" ∧
    ("hello\n" : String) ≠ "hello" :=
  ⟨by decide, by decide, by decide⟩

/-- C1 (amended): the concatenation of the stdout chunk texts, in delivery
order, equals the raw subprocess stdout; on success the non-streaming
runners return exactly that concatenation with leading and trailing
whitespace stripped, so the two agree up to the outer whitespace strip. -/
theorem c1_stream_concat (cfg : ClaudeCli.Cfg) (st : ClaudeCli.SessionState)
    (now : ℚ) (fresh : String) (transcript prompt : String) (timeoutSec : Int)
    (beh : ProcBehavior) (hne : pyStrip transcript ≠ "")
    (hspawn : beh.spawnFails = false) (hto : beh.timesOut = false) :
    strJoin (ClaudeCli.stream_claude_cli cfg st now fresh transcript prompt timeoutSec
      beh).stdoutChunks = beh.stdout ∧
    strJoin (CodexCli.stream_codex_cli transcript prompt timeoutSec
      beh).stdoutChunks = beh.stdout ∧
    (beh.returncode = 0 → pyStrip beh.stdout ≠ "" →
      (ClaudeCli.run_claude cfg st now fresh transcript prompt timeoutSec beh).result
        = Except.ok (pyStrip (strJoin (ClaudeCli.stream_claude_cli cfg st now fresh
            transcript prompt timeoutSec beh).stdoutChunks)) ∧
      (CodexCli.run_codex transcript prompt timeoutSec beh).result
        = Except.ok (pyStrip (strJoin (CodexCli.stream_codex_cli transcript prompt
            timeoutSec beh).stdoutChunks))) := by
  have hclaude : (ClaudeCli.stream_claude_cli cfg st now fresh transcript prompt
      timeoutSec beh).stdoutChunks = splitLinesKeepEnds beh.stdout := by
    simp only [ClaudeCli.stream_claude_cli, hspawn, hto]
    split_ifs <;> simp_all
  have hcodex : (CodexCli.stream_codex_cli transcript prompt
      timeoutSec beh).stdoutChunks = splitLinesKeepEnds beh.stdout := by
    simp only [CodexCli.stream_codex_cli, hspawn, hto]
    split_ifs <;> simp_all
  refine ⟨?_, ?_, ?_⟩
  · rw [hclaude, strJoin_splitLinesKeepEnds]
  · rw [hcodex, strJoin_splitLinesKeepEnds]
  · intro hrc hout
    have h10 := runners_ok_of_success cfg st now fresh transcript prompt
      timeoutSec beh hne hspawn hto hrc hout
    refine ⟨?_, ?_⟩
    · rw [hclaude, strJoin_splitLinesKeepEnds]
      exact h10.1
    · rw [hcodex, strJoin_splitLinesKeepEnds]
      exact h10.2.1

theorem c1_stream_concat_witness :
    strJoin (ClaudeCli.stream_claude_cli cfgNoReuse stEmpty 0 "f" "hi" "p" 600
      behOk).stdoutChunks = behOk.stdout :=
  (c1_stream_concat cfgNoReuse stEmpty 0 "f" "hi" "p" 600 behOk
    (by decide) rfl rfl).1

/-- C2: lease_session_id mints a fresh id (with turn count 0 and
created = true) exactly when no id exists, or the idle time since last use
has reached the clamped idle limit (0 disables the check), or the turn
count has reached the clamped turn limit (0 disables the check); otherwise
it returns the existing id with created = false and leaves the state
untouched.  The invariant hypothesis says a nonempty slot always carries a
positive last_used stamp, which every reachable state satisfies because
minting and touching store a positive monotonic clock value. -/
theorem c2_lease_mints_exactly_on_expiry (idleSec maxTurns : Int)
    (st : ClaudeCli.SessionState) (now : ℚ) (fresh : String)
    (hinv : st.id ≠ "" → 0 < st.lastUsed) :
    ((ClaudeCli.lease_session_id idleSec maxTurns st now fresh).2.1 = true ↔
      (st.id = "" ∨
        (0 < max 0 idleSec ∧ ((max 0 idleSec : Int) : ℚ) ≤ now - st.lastUsed) ∨
        (0 < max 0 maxTurns ∧ max 0 maxTurns ≤ (st.turns : Int)))) ∧
    ((ClaudeCli.lease_session_id idleSec maxTurns st now fresh).2.1 = true →
      (ClaudeCli.lease_session_id idleSec maxTurns st now fresh).1 = fresh ∧
      (ClaudeCli.lease_session_id idleSec maxTurns st now fresh).2.2
        = ⟨fresh, 0, now⟩) ∧
    ((ClaudeCli.lease_session_id idleSec maxTurns st now fresh).2.1 = false →
      (ClaudeCli.lease_session_id idleSec maxTurns st now fresh).1 = st.id ∧
      (ClaudeCli.lease_session_id idleSec maxTurns st now fresh).2.2 = st) := by
  by_cases hc : st.id = "" ∨
      (st.id ≠ "" ∧ 0 < max 0 idleSec ∧ 0 < st.lastUsed ∧
        ((max 0 idleSec : Int) : ℚ) ≤ now - st.lastUsed) ∨
      (st.id ≠ "" ∧ 0 < max 0 maxTurns ∧ max 0 maxTurns ≤ (st.turns : Int))
  · have hres : ClaudeCli.lease_session_id idleSec maxTurns st now fresh
        = (fresh, true, ⟨fresh, 0, now⟩) := by
      unfold ClaudeCli.lease_session_id
      exact if_pos hc
    rw [hres]
    refine ⟨iff_of_true rfl ?_, fun _ => ⟨rfl, rfl⟩, fun hfalse => by simp at hfalse⟩
    rcases hc with h | h | h
    · exact Or.inl h
    · exact Or.inr (Or.inl ⟨h.2.1, h.2.2.2⟩)
    · exact Or.inr (Or.inr ⟨h.2.1, h.2.2⟩)
  · have hres : ClaudeCli.lease_session_id idleSec maxTurns st now fresh
        = (st.id, false, st) := by
      unfold ClaudeCli.lease_session_id
      exact if_neg hc
    rw [hres]
    push_neg at hc
    obtain ⟨hid, hidle, hturn⟩ := hc
    refine ⟨iff_of_false (by simp) ?_, fun htrue => by simp at htrue, fun _ => ⟨rfl, rfl⟩⟩
    rintro (h | ⟨h1, h2⟩ | ⟨h1, h2⟩)
    · exact hid h
    · exact absurd h2 (not_le.mpr (hidle hid h1 (hinv hid)))
    · exact absurd h2 (not_le.mpr (hturn hid h1))

theorem c2_lease_mints_exactly_on_expiry_witness :
    (ClaudeCli.lease_session_id 0 0 stEmpty 0 "abc").2.1 = true :=
  (c2_lease_mints_exactly_on_expiry 0 0 stEmpty 0 "abc"
    (fun h => absurd rfl h)).1.mpr (Or.inl rfl)

/-! Helper lemmas about the session bookkeeping. -/

theorem lease_session_id_state_id (idleSec maxTurns : Int)
    (st : ClaudeCli.SessionState) (now : ℚ) (fresh : String) :
    (ClaudeCli.lease_session_id idleSec maxTurns st now fresh).2.2.id
      = (ClaudeCli.lease_session_id idleSec maxTurns st now fresh).1 := by
  unfold ClaudeCli.lease_session_id
  dsimp only
  split <;> rfl

theorem lease_session_id_on_empty (idleSec maxTurns : Int)
    (st : ClaudeCli.SessionState) (now : ℚ) (fresh : String) (h : st.id = "") :
    (ClaudeCli.lease_session_id idleSec maxTurns st now fresh).2.1 = true ∧
    (ClaudeCli.lease_session_id idleSec maxTurns st now fresh).1 = fresh := by
  unfold ClaudeCli.lease_session_id
  rw [if_pos (Or.inl h)]
  exact ⟨rfl, rfl⟩

theorem touch_session_keeps_id (sessionId : String) (success : Bool) (now : ℚ)
    (st : ClaudeCli.SessionState) (h : st.id = sessionId) :
    (ClaudeCli.touch_session sessionId success now st).id = sessionId := by
  unfold ClaudeCli.touch_session
  by_cases h0 : sessionId = ""
  · rw [if_pos h0, h]
  · rw [if_neg h0, if_neg (by rw [h]; exact fun hne => hne rfl)]
    exact h

theorem reset_session_clears_id (sessionId : String) (st : ClaudeCli.SessionState)
    (h : st.id = sessionId) : (ClaudeCli.reset_session sessionId st).id = "" := by
  unfold ClaudeCli.reset_session
  by_cases h0 : sessionId = ""
  · rw [if_pos h0, h, h0]
  · rw [if_neg h0, if_neg (by rw [h]; exact fun hne => hne rfl)]

theorem maybe_reset_clears_id (sessionId errorText : String)
    (st : ClaudeCli.SessionState) (hid : st.id = sessionId)
    (hs : strContains (pyLower errorText) "session" = true)
    (hi : strContains (pyLower errorText) "not found" = true ∨
      strContains (pyLower errorText) "invalid" = true) :
    (ClaudeCli.maybe_reset_session_from_error sessionId errorText st).id = "" := by
  unfold ClaudeCli.maybe_reset_session_from_error
  have hne : ¬(pyLower errorText = "") := by
    intro h0
    rw [h0] at hs
    exact absurd hs (by decide)
  rw [if_neg hne]
  have hcond : (strContains (pyLower errorText) "session"
      && (strContains (pyLower errorText) "not found"
        || strContains (pyLower errorText) "invalid")) = true := by
    rcases hi with h | h <;> simp [hs, h]
  simp only [hcond, if_true]
  exact reset_session_clears_id sessionId st hid

/-- C3: when a session-backed run_claude invocation exits nonzero and its
captured stderr mentions a session together with a not-found or invalid
indicator, the invocation fails with the non-zero-exit error carrying the
stripped stderr, the session slot ends up cleared, and every subsequent
lease mints a brand-new id. -/
theorem c3_session_error_resets_slot (cfg : ClaudeCli.Cfg)
    (st : ClaudeCli.SessionState) (now : ℚ) (fresh : String)
    (transcript prompt : String) (timeoutSec : Int) (beh : ProcBehavior)
    (hsup : ClaudeCli.session_reuse_supported cfg.reuseSession
      (ClaudeCli.resolve_command cfg.commandTokens) = true)
    (hne : pyStrip transcript ≠ "") (hspawn : beh.spawnFails = false)
    (hto : beh.timesOut = false) (hrc : beh.returncode ≠ 0)
    (hsession : strContains (pyLower (pyStrip beh.stderr)) "session" = true)
    (hind : strContains (pyLower (pyStrip beh.stderr)) "not found" = true ∨
      strContains (pyLower (pyStrip beh.stderr)) "invalid" = true) :
    (ClaudeCli.run_claude cfg st now fresh transcript prompt timeoutSec beh).result
      = Except.error (RunError.nonZeroExit beh.returncode (pyStrip beh.stderr)) ∧
    (ClaudeCli.run_claude cfg st now fresh transcript prompt timeoutSec beh).session.id
      = "" ∧
    (∀ (now2 : ℚ) (fresh2 : String),
      (ClaudeCli.lease_session_id cfg.sessionIdleSec cfg.sessionMaxTurns
        (ClaudeCli.run_claude cfg st now fresh transcript prompt timeoutSec beh).session
        now2 fresh2).2.1 = true ∧
      (ClaudeCli.lease_session_id cfg.sessionIdleSec cfg.sessionMaxTurns
        (ClaudeCli.run_claude cfg st now fresh transcript prompt timeoutSec beh).session
        now2 fresh2).1 = fresh2) := by
  have hres : (ClaudeCli.run_claude cfg st now fresh transcript prompt timeoutSec
      beh).result = Except.error (RunError.nonZeroExit beh.returncode
        (pyStrip beh.stderr)) := by
    simp [ClaudeCli.run_claude, ClaudeCli.build_command_with_session, hsup, hne,
      hspawn, hto, hrc]
  have hsess : (ClaudeCli.run_claude cfg st now fresh transcript prompt timeoutSec
      beh).session
      = ClaudeCli.maybe_reset_session_from_error
          (ClaudeCli.lease_session_id cfg.sessionIdleSec cfg.sessionMaxTurns st now
            fresh).1
          (pyStrip beh.stderr)
          (ClaudeCli.touch_session
            (ClaudeCli.lease_session_id cfg.sessionIdleSec cfg.sessionMaxTurns st now
              fresh).1
            false now
            (ClaudeCli.lease_session_id cfg.sessionIdleSec cfg.sessionMaxTurns st now
              fresh).2.2) := by
    simp [ClaudeCli.run_claude, ClaudeCli.build_command_with_session, hsup, hne,
      hspawn, hto, hrc]
  have hcleared : (ClaudeCli.run_claude cfg st now fresh transcript prompt timeoutSec
      beh).session.id = "" := by
    rw [hsess]
    exact maybe_reset_clears_id _ _ _
      (touch_session_keeps_id _ _ _ _
        (lease_session_id_state_id cfg.sessionIdleSec cfg.sessionMaxTurns st now fresh))
      hsession hind
  refine ⟨hres, hcleared, fun now2 fresh2 => ?_⟩
  exact lease_session_id_on_empty cfg.sessionIdleSec cfg.sessionMaxTurns _ now2 fresh2
    hcleared

theorem c3_session_error_resets_slot_witness :
    (ClaudeCli.run_claude cfgReuse stEmpty 0 "s1" "hi" "p" 5 behSessErr).session.id
      = "" ∧
    (ClaudeCli.lease_session_id cfgReuse.sessionIdleSec cfgReuse.sessionMaxTurns
      (ClaudeCli.run_claude cfgReuse stEmpty 0 "s1" "hi" "p" 5 behSessErr).session
      7 "s2").2.1 = true :=
  have h := c3_session_error_resets_slot cfgReuse stEmpty 0 "s1" "hi" "p" 5 behSessErr
    (by decide) (by decide) rfl rfl (by decide) (by decide) (Or.inl (by decide))
  ⟨h.2.1, (h.2.2 7 "s2").1⟩

/-- C8: for a configured command whose binary base name matches the agent's
canonical name, with no explicit print flag among the arguments (claude) and
whose first argument is not a recognised subcommand, command resolution
inserts the default flag or subcommand right after the binary; a command
already carrying the print flag or opening with a recognised subcommand is
returned unchanged by both resolvers. -/
theorem c8_resolve_command_inserts_default :
    (∀ (bin : String) (args : List String),
      pyLower (baseName bin) = "claude" →
      (∀ t ∈ args, t ≠ "-p" ∧ t ≠ "--print") →
      (∀ first, args.head? = some first →
        ClaudeCli.claude_subcommands.contains first = false) →
      ClaudeCli.resolve_command (bin :: args) = bin :: "-p" :: args) ∧
    (∀ (bin : String) (args : List String),
      ((∃ t ∈ args, t = "-p" ∨ t = "--print") ∨
        (∃ first, args.head? = some first ∧
          ClaudeCli.claude_subcommands.contains first = true)) →
      ClaudeCli.resolve_command (bin :: args) = bin :: args) ∧
    (∀ (bin : String) (args : List String),
      pyLower (baseName bin) = "codex" →
      (∀ first, args.head? = some first →
        CodexCli.codex_subcommands.contains first = false) →
      CodexCli.resolve_command (bin :: args) = bin :: "exec" :: args) ∧
    (∀ (bin : String) (args : List String) (first : String),
      args.head? = some first → CodexCli.codex_subcommands.contains first = true →
      CodexCli.resolve_command (bin :: args) = bin :: args) := by
  refine ⟨?_, ?_, ?_, ?_⟩
  · intro bin args hbin hflag hsub
    have h1 : (pyLower (baseName bin) == "claude") = true := beq_iff_eq.mpr hbin
    have h2 : (args.any fun token => token == "-p" || token == "--print") = false := by
      rw [List.any_eq_false]
      intro t ht
      obtain ⟨hp, hpp⟩ := hflag t ht
      simp only [Bool.or_eq_true, beq_iff_eq]
      rintro (rfl | rfl)
      · exact hp rfl
      · exact hpp rfl
    cases args with
    | nil => simp [ClaudeCli.resolve_command, h1]
    | cons first rest =>
      have hns : first ∉ ClaudeCli.claude_subcommands := by
        simpa using hsub first rfl
      simp [ClaudeCli.resolve_command, h1, h2, hns]
  · intro bin args h
    rcases h with ⟨t, ht, hor⟩ | ⟨first, hhead, hc⟩
    · have hany : (args.any fun token => token == "-p" || token == "--print") = true := by
        rw [List.any_eq_true]
        refine ⟨t, ht, ?_⟩
        rcases hor with rfl | rfl <;> simp
      cases args with
      | nil => cases ht
      | cons first rest => simp [ClaudeCli.resolve_command, hany]
    · cases args with
      | nil => cases hhead
      | cons a rest =>
        simp only [List.head?_cons, Option.some.injEq] at hhead
        subst hhead
        have hm : a ∈ ClaudeCli.claude_subcommands := by simpa using hc
        simp [ClaudeCli.resolve_command, hm]
  · intro bin args hbin hsub
    have h1 : (pyLower (baseName bin) == "codex") = true := beq_iff_eq.mpr hbin
    cases args with
    | nil => simp [CodexCli.resolve_command, h1]
    | cons first rest =>
      have hns : first ∉ CodexCli.codex_subcommands := by
        simpa using hsub first rfl
      simp [CodexCli.resolve_command, h1, hns]
  · intro bin args first hhead hc
    cases args with
    | nil => cases hhead
    | cons a rest =>
      simp only [List.head?_cons, Option.some.injEq] at hhead
      subst hhead
      have hm : a ∈ CodexCli.codex_subcommands := by simpa using hc
      simp [CodexCli.resolve_command, hm]

theorem c8_resolve_command_inserts_default_witness :
    ClaudeCli.resolve_command ["claude", "--verbose"] = ["claude", "-p", "--verbose"] ∧
    ClaudeCli.resolve_command ["claude", "-p"] = ["claude", "-p"] ∧
    CodexCli.resolve_command ["codex"] = ["codex", "exec"] ∧
    CodexCli.resolve_command ["codex", "exec"] = ["codex", "exec"] := by
  have h := c8_resolve_command_inserts_default
  refine ⟨?_, ?_, ?_, ?_⟩
  · exact h.1 "claude" ["--verbose"] (by decide) (by decide)
      (by
        intro first hh
        simp only [List.head?_cons, Option.some.injEq] at hh
        subst hh
        decide)
  · exact h.2.1 "claude" ["-p"] (Or.inl ⟨"-p", by decide, Or.inl rfl⟩)
  · exact h.2.2.1 "codex" [] (by decide) (fun first hh => by cases hh)
  · exact h.2.2.2 "codex" ["exec"] "exec" rfl (by decide)

/-! Helper lemmas about the sequence-number fold. -/

/-- The maximum of index + 1 over the indices extracted from the stems,
zero when no stem matches either pattern. -/
def maxExtractedSucc (stems : List String) : Nat :=
  ((stems.filterMap AiRouter.extract_issue_index).map (· + 1)).foldr max 0

theorem next_issue_num_foldl (stems : List String) : ∀ acc : Nat,
    stems.foldl
      (fun acc stem =>
        match AiRouter.extract_issue_index stem with
        | some i => max acc (i + 1)
        | none => acc)
      acc
    = max acc (maxExtractedSucc stems) := by
  induction stems with
  | nil => intro acc; simp [maxExtractedSucc]
  | cons s rest ih =>
    intro acc
    cases h : AiRouter.extract_issue_index s with
    | none =>
      rw [List.foldl_cons]
      simp only [h]
      rw [ih acc]
      unfold maxExtractedSucc
      simp only [List.filterMap_cons, h]
    | some i =>
      rw [List.foldl_cons]
      simp only [h]
      rw [ih (max acc (i + 1))]
      unfold maxExtractedSucc
      simp only [List.filterMap_cons, h, List.map_cons, List.foldr_cons]
      omega

theorem next_issue_num_eq_max (stems : List String) :
    AiRouter.next_issue_num stems = max 1 (maxExtractedSucc stems) :=
  next_issue_num_foldl stems 1

theorem foldr_max_le_of_mem (l : List Nat) (k : Nat) (hk : k ∈ l) :
    k ≤ l.foldr max 0 := by
  induction l with
  | nil => cases hk
  | cons a rest ih =>
    rw [List.foldr_cons]
    rcases List.mem_cons.mp hk with rfl | hmem
    · exact Nat.le_max_left _ _
    · exact le_trans (ih hmem) (Nat.le_max_right _ _)

theorem foldr_max_mem (l : List Nat) (h : l ≠ []) : l.foldr max 0 ∈ l := by
  induction l with
  | nil => exact absurd rfl h
  | cons a rest ih =>
    rw [List.foldr_cons]
    rcases eq_or_ne rest [] with rfl | hne
    · simp
    · rcases max_choice a (rest.foldr max 0) with hm | hm
      · rw [hm]; exact List.mem_cons_self a rest
      · rw [hm]; exact List.mem_cons_of_mem a (ih hne)

theorem foldr_max_map_succ (l : List Nat) (h : l ≠ []) :
    (l.map (· + 1)).foldr max 0 = l.foldr max 0 + 1 := by
  induction l with
  | nil => exact absurd rfl h
  | cons a rest ih =>
    rcases eq_or_ne rest [] with rfl | hne
    · simp
    · rw [List.map_cons, List.foldr_cons, List.foldr_cons, ih hne]
      omega

/-- C4: the sequence number chosen by the issue writer is one greater than
the largest index extractable from the existing stems by the two patterns,
and 1 when none matches; in particular a folder holding team_003_old.md and
team_007_alpha.md, with folder token team and an output whose heading gives
the title Beta, is saved as team_008_Beta.md. -/
theorem c4_issue_sequence_number :
    (∀ stems : List String,
      stems.filterMap AiRouter.extract_issue_index = [] →
      AiRouter.next_issue_num stems = 1) ∧
    (∀ stems : List String,
      stems.filterMap AiRouter.extract_issue_index ≠ [] →
      ∃ m ∈ stems.filterMap AiRouter.extract_issue_index,
        (∀ k ∈ stems.filterMap AiRouter.extract_issue_index, k ≤ m) ∧
        AiRouter.next_issue_num stems = m + 1) ∧
    AiRouter.save_ai_output_name "team" "Issues" ["team_003_old", "team_007_alpha"]
      "# Beta" "source" = "team_008_Beta.md" := by
  refine ⟨?_, ?_, by decide⟩
  · intro stems h
    rw [next_issue_num_eq_max]
    unfold maxExtractedSucc
    rw [h]
    rfl
  · intro stems h
    set ext := stems.filterMap AiRouter.extract_issue_index with hext
    refine ⟨ext.foldr max 0, foldr_max_mem ext h, fun k hk => foldr_max_le_of_mem ext k hk, ?_⟩
    rw [next_issue_num_eq_max]
    unfold maxExtractedSucc
    rw [← hext, foldr_max_map_succ ext h]
    omega

theorem c4_issue_sequence_number_witness :
    AiRouter.next_issue_num ["team_003_old", "team_007_alpha"] = 8 := by
  obtain ⟨m, hmem, hub, heq⟩ := c4_issue_sequence_number.2.1
    ["team_003_old", "team_007_alpha"] (by decide)
  have hlist : ["team_003_old", "team_007_alpha"].filterMap AiRouter.extract_issue_index
      = [3, 7] := by decide
  rw [hlist] at hmem hub
  have h7 : (7 : Nat) ≤ m := hub 7 (by decide)
  have hcases : m = 3 ∨ m = 7 := by simpa using hmem
  rcases hcases with rfl | rfl
  · exact absurd h7 (by omega)
  · rw [heq]

/-- Nine strictly increasing size samples: no two consecutive samples agree,
so the stability requirement is never met within the bounded attempts. -/
def unstableSamples : List (Option Int) :=
  [some 1, some 2, some 3, some 4, some 5, some 6, some 7, some 8, some 9]

/-- C5 counterexample: on a size trace that never stabilises (the same trace
returns false when the file is gone at the end, certifying that the stable
branch is never reached), the wait nonetheless returns true when the file
still exists after the attempts, and the candidate is summarized and
persisted rather than silently skipped. -/
theorem c5_counterexample :
    AiRouter.wait_for_stable_file unstableSamples false = false ∧
    AiRouter.wait_for_stable_file unstableSamples true = true ∧
    AiRouter.handle_auto_watch_file true unstableSamples true = true :=
  ⟨by decide, by decide, by decide⟩

theorem waitLoop_or (l : List (Option Int)) :
    ∀ (lastSize : Int) (stableCount : Nat) (ex : Bool),
    (∀ s ∈ l, s ≠ none) →
    AiRouter.waitLoop ex lastSize stableCount l
      = (AiRouter.waitLoop false lastSize stableCount l || ex) := by
  induction l with
  | nil => intro _ _ ex _; simp [AiRouter.waitLoop]
  | cons s rest ih =>
    intro lastSize stableCount ex h
    cases s with
    | none => exact absurd rfl (h none (List.mem_cons_self _ _))
    | some cur =>
      have hrest : ∀ x ∈ rest, x ≠ none := fun x hx => h x (List.mem_cons_of_mem _ hx)
      by_cases hc : cur = lastSize
      · by_cases hs : AiRouter.settleAttempts ≤ stableCount + 1
        · simp [AiRouter.waitLoop, hc, hs]
        · simp [AiRouter.waitLoop, hc, hs, ih lastSize (stableCount + 1) ex hrest]
      · simp [AiRouter.waitLoop, hc, ih cur 0 ex hrest]

/-- C5 (amended): when no size sample hits a missing file, the bounded wait
never gives up silently on instability alone: it returns true exactly when
stability was observed or the file still exists after the attempts, so an
unstable but surviving candidate is summarized and persisted anyway, and
only a vanished file is skipped. -/
theorem c5_unstable_survivor_processed (samples : List (Option Int)) (ex : Bool)
    (h : ∀ s ∈ samples.take (AiRouter.settleAttempts * 3), s ≠ none) :
    AiRouter.wait_for_stable_file samples ex
      = (AiRouter.wait_for_stable_file samples false || ex) := by
  unfold AiRouter.wait_for_stable_file
  exact waitLoop_or (samples.take (AiRouter.settleAttempts * 3)) (-1) 0 ex h

theorem c5_unstable_survivor_processed_witness :
    AiRouter.wait_for_stable_file unstableSamples true
      = (AiRouter.wait_for_stable_file unstableSamples false || true) :=
  c5_unstable_survivor_processed unstableSamples true (by decide)

/-- C6: on a watch tick whose tracked root equals the configured root, the
queued batch contains exactly the current scan minus the known set, listed
without duplicates in ascending path order, and the known set becomes the
current scan; in particular known a.md with current a.md, b.md queues
exactly b.md and the known set becomes both files. -/
theorem c6_watch_tick_diff (known current : Finset String)
    (trackedVault vaultText : String) (h : trackedVault = vaultText) :
    (AiRouter.auto_watch_tick known trackedVault vaultText current).2 = current ∧
    ((AiRouter.auto_watch_tick known trackedVault vaultText current).1).toFinset
      = current \ known ∧
    List.Sorted (· ≤ ·) (AiRouter.auto_watch_tick known trackedVault vaultText current).1 ∧
    (AiRouter.auto_watch_tick known trackedVault vaultText current).1.Nodup ∧
    AiRouter.auto_watch_tick {"a.md"} "root" "root" {"a.md", "b.md"}
      = (["b.md"], {"a.md", "b.md"}) := by
  have hne : ¬(trackedVault ≠ vaultText) := fun hx => hx h
  have hmain : AiRouter.auto_watch_tick known trackedVault vaultText current
      = (Finset.sort (· ≤ ·) (current \ known), current) := by
    unfold AiRouter.auto_watch_tick
    exact if_neg hne
  rw [hmain]
  refine ⟨rfl, Finset.sort_toFinset _ _, Finset.sort_sorted _ _,
    Finset.sort_nodup _ _, ?_⟩
  have hdiff : ({"a.md", "b.md"} : Finset String) \ {"a.md"} = {"b.md"} := by decide
  simp [AiRouter.auto_watch_tick, hdiff]

theorem c6_watch_tick_diff_witness :
    (AiRouter.auto_watch_tick {"a.md"} "root" "root" {"a.md", "b.md"}).2
      = {"a.md", "b.md"} :=
  (c6_watch_tick_diff {"a.md"} {"a.md", "b.md"} "root" "root" rfl).1

/-- C9 counterexample: the router's summarize path spawns the session-capable
agent binary via _run_subprocess_once without acquiring the global execution
lock, so the system contains a claude invocation site outside the lock. -/
theorem c9_counterexample :
    aiRunSubprocessOnceSite "claude" ∈ spawnSites cfgReuse ["codex"] "claude" ∧
    spawnsSessionAgent (aiRunSubprocessOnceSite "claude") = true ∧
    (aiRunSubprocessOnceSite "claude").underSessionExecLock = false :=
  ⟨by decide, by decide, rfl⟩

/-- C9 (amended): the two claude_cli_service entry points run the
session-capable agent only while holding the global execution lock, but the
router's summarize and run paths spawn the same claude binary without the
lock, so the lock totally orders only the service-layer invocations, never
the router's direct spawns. -/
theorem c9_lock_covers_only_service_layer :
    (∀ cfg : ClaudeCli.Cfg,
      (claudeServiceRunSite cfg).underSessionExecLock = true ∧
      (claudeServiceStreamSite cfg).underSessionExecLock = true) ∧
    spawnsSessionAgent (aiRunSubprocessOnceSite "claude") = true ∧
    (aiRunSubprocessOnceSite "claude").underSessionExecLock = false ∧
    spawnsSessionAgent (aiStreamSubprocessSite "claude") = true ∧
    (aiStreamSubprocessSite "claude").underSessionExecLock = false :=
  ⟨fun _ => ⟨rfl, rfl⟩, by decide, rfl, by decide, rfl⟩
